import Mathlib

/-
Shallow embedding of the pagination-and-normalization pipeline of
src/newapi.py (BetsAPI events -> canonical rows).

Conventions of the embedding:
* JSON values (and Python values flowing through the pipeline) are the
  inductive `Json`; Python `None` and JSON `null` are both `Json.null`
  (they are indistinguishable through `dict.get`).
* JSON numbers are modelled as integers (the claims only exercise
  integral payloads).
* Python truthiness is `pyTruthy`, `a or b` is `pyOr`.
* `dict.get(k)` is `dget` (total on objects, `null` when the key is
  absent or its value is null); calling `.get` on a non-dict raises
  `AttributeError` in Python, which fallible embedded functions model
  with `Except.error`.
* `zoneinfo.ZoneInfo` resolution is a parameter
  `resolve : String -> Option (Int -> Int)`: an unknown zone name
  resolves to `none` (the constructor raises), a known zone gives the
  UTC-offset (in seconds) of each instant.
-/

inductive Json where
  | null : Json
  | bool (b : Bool) : Json
  | num (n : Int) : Json
  | str (s : String) : Json
  | arr (xs : List Json) : Json
  | obj (fields : List (String × Json)) : Json

mutual

def Json.decEq : (a b : Json) → Decidable (a = b)
  | .null, .null => isTrue rfl
  | .bool x, .bool y =>
      if h : x = y then isTrue (by rw [h]) else isFalse (fun hh => by cases hh; exact h rfl)
  | .num x, .num y =>
      if h : x = y then isTrue (by rw [h]) else isFalse (fun hh => by cases hh; exact h rfl)
  | .str x, .str y =>
      if h : x = y then isTrue (by rw [h]) else isFalse (fun hh => by cases hh; exact h rfl)
  | .arr xs, .arr ys =>
      match Json.decEqList xs ys with
      | isTrue h => isTrue (by rw [h])
      | isFalse h => isFalse (fun hh => by cases hh; exact h rfl)
  | .obj xs, .obj ys =>
      match Json.decEqFields xs ys with
      | isTrue h => isTrue (by rw [h])
      | isFalse h => isFalse (fun hh => by cases hh; exact h rfl)
  | .null, .bool _ => isFalse (fun h => Json.noConfusion h)
  | .null, .num _ => isFalse (fun h => Json.noConfusion h)
  | .null, .str _ => isFalse (fun h => Json.noConfusion h)
  | .null, .arr _ => isFalse (fun h => Json.noConfusion h)
  | .null, .obj _ => isFalse (fun h => Json.noConfusion h)
  | .bool _, .null => isFalse (fun h => Json.noConfusion h)
  | .bool _, .num _ => isFalse (fun h => Json.noConfusion h)
  | .bool _, .str _ => isFalse (fun h => Json.noConfusion h)
  | .bool _, .arr _ => isFalse (fun h => Json.noConfusion h)
  | .bool _, .obj _ => isFalse (fun h => Json.noConfusion h)
  | .num _, .null => isFalse (fun h => Json.noConfusion h)
  | .num _, .bool _ => isFalse (fun h => Json.noConfusion h)
  | .num _, .str _ => isFalse (fun h => Json.noConfusion h)
  | .num _, .arr _ => isFalse (fun h => Json.noConfusion h)
  | .num _, .obj _ => isFalse (fun h => Json.noConfusion h)
  | .str _, .null => isFalse (fun h => Json.noConfusion h)
  | .str _, .bool _ => isFalse (fun h => Json.noConfusion h)
  | .str _, .num _ => isFalse (fun h => Json.noConfusion h)
  | .str _, .arr _ => isFalse (fun h => Json.noConfusion h)
  | .str _, .obj _ => isFalse (fun h => Json.noConfusion h)
  | .arr _, .null => isFalse (fun h => Json.noConfusion h)
  | .arr _, .bool _ => isFalse (fun h => Json.noConfusion h)
  | .arr _, .num _ => isFalse (fun h => Json.noConfusion h)
  | .arr _, .str _ => isFalse (fun h => Json.noConfusion h)
  | .arr _, .obj _ => isFalse (fun h => Json.noConfusion h)
  | .obj _, .null => isFalse (fun h => Json.noConfusion h)
  | .obj _, .bool _ => isFalse (fun h => Json.noConfusion h)
  | .obj _, .num _ => isFalse (fun h => Json.noConfusion h)
  | .obj _, .str _ => isFalse (fun h => Json.noConfusion h)
  | .obj _, .arr _ => isFalse (fun h => Json.noConfusion h)

def Json.decEqList : (xs ys : List Json) → Decidable (xs = ys)
  | [], [] => isTrue rfl
  | [], _ :: _ => isFalse (fun h => List.noConfusion h)
  | _ :: _, [] => isFalse (fun h => List.noConfusion h)
  | x :: xs, y :: ys =>
      match Json.decEq x y with
      | isFalse h1 => isFalse (fun h => by cases h; exact h1 rfl)
      | isTrue h1 =>
          match Json.decEqList xs ys with
          | isTrue h2 => isTrue (by rw [h1, h2])
          | isFalse h2 => isFalse (fun h => by cases h; exact h2 rfl)

def Json.decEqFields : (xs ys : List (String × Json)) → Decidable (xs = ys)
  | [], [] => isTrue rfl
  | [], _ :: _ => isFalse (fun h => List.noConfusion h)
  | _ :: _, [] => isFalse (fun h => List.noConfusion h)
  | (k1, v1) :: xs, (k2, v2) :: ys =>
      if hk : k1 = k2 then
        match Json.decEq v1 v2 with
        | isFalse h1 => isFalse (fun h => by cases h; exact h1 rfl)
        | isTrue h1 =>
            match Json.decEqFields xs ys with
            | isTrue h2 => isTrue (by rw [hk, h1, h2])
            | isFalse h2 => isFalse (fun h => by cases h; exact h2 rfl)
      else isFalse (fun h => by cases h; exact hk rfl)

end

instance : DecidableEq Json := Json.decEq

def Json.isObj : Json → Bool
  | .obj _ => true
  | _ => false

def Json.isStr : Json → Bool
  | .str _ => true
  | _ => false

/-- Python truthiness (`bool(x)`) of a JSON-shaped value. -/
def pyTruthy : Json → Bool
  | .null => false
  | .bool b => b
  | .num n => n != 0
  | .str s => s != ""
  | .arr xs => !xs.isEmpty
  | .obj fs => !fs.isEmpty

/-- Python `a or b`. -/
def pyOr (a b : Json) : Json := if pyTruthy a then a else b

/-- Python `d.get(k)`: value of the key (first binding), `null` when the
key is absent or the receiver is not a dict (callers guard the non-dict
case where Python would raise). -/
def dget (j : Json) (k : String) : Json :=
  match j with
  | .obj fs =>
      match fs.find? (fun p => p.1 == k) with
      | some p => p.2
      | none => Json.null
  | _ => Json.null

/-- Python `d.get(k, default)`: presence-aware (a key bound to `null`
still wins over the default). -/
def dgetD (j : Json) (k : String) (default : Json) : Json :=
  match j with
  | .obj fs =>
      match fs.find? (fun p => p.1 == k) with
      | some p => p.2
      | none => default
  | _ => default

mutual

/-- Python `repr` of a JSON-shaped value (string contents are quoted with
a single quote and not further escaped; the pipeline only ever applies
it through `pyStr` below). -/
def pyRepr : Json → String
  | .null => "None"
  | .bool true => "True"
  | .bool false => "False"
  | .num n => toString n
  | .str s => "\x27" ++ s ++ "\x27"
  | .arr xs => "[" ++ String.intercalate ", " (pyReprList xs) ++ "]"
  | .obj fs => "\x7b" ++ String.intercalate ", " (pyReprFields fs) ++ "\x7d"

/-- `repr` of the elements of a list. -/
def pyReprList : List Json → List String
  | [] => []
  | x :: xs => pyRepr x :: pyReprList xs

/-- `repr` of the bindings of a dict. -/
def pyReprFields : List (String × Json) → List String
  | [] => []
  | (k, v) :: fs => ("\x27" ++ k ++ "\x27: " ++ pyRepr v) :: pyReprFields fs
end

/-- Python `str(x)` of a JSON-shaped value. -/
def pyStr : Json → String
  | .str s => s
  | v => pyRepr v

/-- Python `s.strip()`: drop leading and trailing whitespace. -/
def pyStrip (s : String) : String :=
  String.mk (((s.data.dropWhile Char.isWhitespace).reverse.dropWhile
    Char.isWhitespace).reverse)

/-- Python `int(x)`: integers and booleans coerce, strings parse as an
optionally signed integer (surrounding whitespace ignored), everything
else raises (`none`). -/
def parseIntStr (s : String) : Option Int :=
  let t := pyStrip s
  let t :=
    match t.data with
    | Char.ofNat 43 :: rest => String.mk rest
    | _ => t
  if t = "" then none else t.toInt?

def pyToInt : Json → Option Int
  | .num n => some n
  | .bool b => some (if b then 1 else 0)
  | .str s => parseIntStr s
  | _ => none

/-- Python iteration (`list.extend(x)`): lists yield their elements,
strings their characters, dicts their keys; numbers and booleans raise
`TypeError` (`none`). -/
def pyIter : Json → Option (List Json)
  | .arr xs => some xs
  | .str s => some (s.toList.map (fun c => Json.str (String.mk [c])))
  | .obj fs => some (fs.map (fun p => Json.str p.1))
  | _ => none

-- -----------------------------
-- src/newapi.py, lines 120-121
-- -----------------------------

def MAX_PAGES_PER_DAY : Nat := 20

-- -----------------------------
-- src/newapi.py, lines 123-138
-- -----------------------------

/-- `_extract_name(side)`: name of home/away from the BetsAPI structure.
May arrive as a string or as a dict with several candidate fields. -/
def _extract_name (side : Json) : Json :=
  match side with
  | .null => Json.str ""
  | .obj _ =>
      pyOr (pyOr (pyOr (pyOr (dget side "name") (dget side "name_en"))
        (dget side "name_full")) (dget side "name_short")) (Json.str "")
  | s => Json.str (pyStr s)

-- -----------------------------
-- src/newapi.py, lines 140-170
-- -----------------------------

/-- Zero-padded two-digit field of `strftime`. -/
def pad2 (n : Int) : String :=
  if 0 ≤ n ∧ n < 10 then "0" ++ toString n else toString n

/-- Proleptic Gregorian civil date `(year, month, day)` of a day count
from 1970-01-01 (the arithmetic performed by
`datetime.fromtimestamp(..., tz=utc)`). -/
def civilFromDays (z0 : Int) : Int × Int × Int :=
  let z := z0 + 719468
  let era := (if 0 ≤ z then z else z - 146096).ediv 146097
  let doe := z - era * 146097
  let yoe := (doe - doe.ediv 1460 + doe.ediv 36524 - doe.ediv 146096).ediv 365
  let y := yoe + era * 400
  let doy := doe - (365 * yoe + yoe.ediv 4 - yoe.ediv 100)
  let mp := (5 * doy + 2).ediv 153
  let d := doy - (153 * mp + 2).ediv 5 + 1
  let m := mp + (if mp < 10 then 3 else -9)
  (y + (if m ≤ 2 then 1 else 0), m, d)

/-- `strftime("%Y-%m-%d")` of an epoch second count. -/
def formatDate (secs : Int) : String :=
  let c := civilFromDays (secs.ediv 86400)
  toString c.1 ++ "-" ++ pad2 c.2.1 ++ "-" ++ pad2 c.2.2

/-- `strftime("%H:%M:%S")` of an epoch second count. -/
def formatTime (secs : Int) : String :=
  let s := secs.emod 86400
  pad2 (s.ediv 3600) ++ ":" ++ pad2 ((s.emod 3600).ediv 60) ++ ":" ++ pad2 (s.emod 60)

/-- `_convert_epoch_to_date_time(epoch_value, tz_name)`: epoch (UTC) to
date and time strings in the requested timezone when possible.
`resolve` embeds the `ZoneInfo` constructor (`none` = unknown zone name,
i.e. the constructor raises and the code falls back to UTC); the library
is present (`ZoneInfo is not None`).  In the embedding the date
arithmetic and formatting are total, so the source's final
`utcfromtimestamp` fallback tier (lines 164-170), reachable in Python
only through formatting exceptions, has no separate branch here. -/
def _convert_epoch_to_date_time (resolve : String → Option (Int → Int))
    (epoch_value : Json) (tz_name : String) : String × String :=
  if pyTruthy epoch_value then
    match pyToInt epoch_value with
    | none => ("", "")
    | some ts =>
        let off : Int → Int :=
          if tz_name = "" then fun _ => 0
          else
            match resolve tz_name with
            | some f => f
            | none => fun _ => 0
        let localSecs := ts + off ts
        (formatDate localSecs, formatTime localSecs)
  else ("", "")

-- -----------------------------
-- src/newapi.py, lines 172-230
-- -----------------------------

/-- Canonical Event Row.  The five fields the source passes through
`str(...)` are `String`; `first_player`, `second_player` and
`tournament_name` hold whatever JSON value the extraction produced
(the source does not coerce them). -/
structure Row where
  event_key : String
  event_date : String
  event_time : String
  first_player : Json
  second_player : Json
  tournament_name : Json
  event_type_type : String
  event_status : String
deriving DecidableEq

/-- Lines 180-187: the event identifier
`str(it.get("id") or it.get("event_id") or it.get("FI") or
it.get("match_id") or it.get("event_key"))`, empty when the chain
evaluates to `None` (split into `strOrEmpty`, line 187, and the
`or`-chain of lines 181-186). -/
def strOrEmpty (v : Json) : String :=
  match v with
  | .null => ""
  | v => pyStr v

/-- Lines 180-187 assembled: the normalized `event_key`. -/
def eventKeyOf (it : Json) : String :=
  strOrEmpty
    (pyOr (pyOr (pyOr (pyOr (dget it "id") (dget it "event_id"))
      (dget it "FI")) (dget it "match_id")) (dget it "event_key"))

/-- One iteration of the `for it in (result_list or [])` body of
`normalize_result`.  Python raises `AttributeError` when `it` is not a
dict (the first `it.get` call); every other step is total. -/
def normalizeRecord (resolve : String → Option (Int → Int)) (tz : String)
    (it : Json) : Except String Row :=
  match it with
  | .obj _ =>
      let time_epoch := pyOr (pyOr (dget it "time") (dget it "start_time")) (dget it "kickoff")
      let dtp := _convert_epoch_to_date_time resolve time_epoch tz
      let league := pyOr (dget it "league") (Json.obj [])
      let tournament_name :=
        match league with
        | .obj _ =>
            pyOr (pyOr (pyOr (dget league "name") (dget league "name_en"))
              (dget league "cc")) (Json.str "")
        | .null => Json.str ""
        | l => Json.str (pyStr l)
      let home := pyOr (pyOr (dget it "home") (dget it "home_team")) (dget it "home_player")
      let away := pyOr (pyOr (dget it "away") (dget it "away_team")) (dget it "away_player")
      .ok {
        event_key := eventKeyOf it
        event_date := dtp.1
        event_time := dtp.2
        first_player := _extract_name home
        second_player := _extract_name away
        tournament_name := tournament_name
        event_type_type := pyStr (pyOr (dget it "sport_id") (Json.str ""))
        event_status := pyStr (pyOr (pyOr (dget it "time_status") (dget it "status")) (Json.str ""))
      }
  | _ => .error "AttributeError"

/-- `normalize_result(result_list, tz_name)`: one row per record, in
input order; an exception raised on any record propagates. -/
def normalizeResult (resolve : String → Option (Int → Int)) (tz : String) :
    List Json → Except String (List Row)
  | [] => .ok []
  | it :: rest =>
      match normalizeRecord resolve tz it with
      | .error e => .error e
      | .ok row =>
          match normalizeResult resolve tz rest with
          | .error e => .error e
          | .ok rows => .ok (row :: rows)

-- -----------------------------
-- src/newapi.py, lines 309-404 (the do_fetch branch)
-- -----------------------------

/-- Python `x == 1` for the `success` flag (in Python `True == 1`). -/
def jsonEqOne : Json → Bool
  | .num 1 => true
  | .bool true => true
  | _ => false

/-- A `(day, page, message)` entry of the `errores` list. -/
inductive ErrEntry where
  | http (day page : Nat) (msg : String) : ErrEntry
  | notSuccess (day page : Nat) (errPayload : Json) : ErrEntry
  | ceiling (day : Nat) : ErrEntry
deriving DecidableEq

/-- The `while True` pagination loop of lines 329-368 for one day.
`fetch page` embeds `fetch_api_day` (`Except.error` = the `requests`
call or `r.json()` raised).  `page` is the source's loop counter; the
extra argument `left` carries `MAX_PAGES_PER_DAY - page`, so the
source's ceiling test `page + 1 > MAX_PAGES_PER_DAY` is the structural
test `left = 0` (the loop is bounded by construction, mirroring the
comment "seguridad para no paginar infinito").  Returns the day's
accumulated records and error entries (or the uncaught exception a
malformed payload raises), paired with the number of HTTP calls made. -/
def dayLoopAux (fetch : Nat → Except String Json) (day : Nat) :
    Nat → Nat → List Json → List ErrEntry → Nat →
    Except String (List Json × List ErrEntry) × Nat
  | left, page, acc, errs, calls =>
    match fetch page with
    | .error e => (.ok (acc, errs ++ [.http day page e]), calls + 1)
    | .ok payload =>
        match payload with
        | .obj _ =>
            if jsonEqOne (dget payload "success") then
              let results :=
                match dget payload "results" with
                | .null => dget payload "result"
                | v => v
              if pyTruthy results then
                match pyIter results with
                | some items =>
                    let acc2 := acc ++ items
                    match left with
                    | 0 => (.ok (acc2, errs ++ [.ceiling day]), calls + 1)
                    | left' + 1 => dayLoopAux fetch day left' (page + 1) acc2 errs (calls + 1)
                | none => (.error "TypeError", calls + 1)
              else (.ok (acc, errs), calls + 1)
            else (.ok (acc, errs ++ [.notSuccess day page (dgetD payload "error" payload)]), calls + 1)
        | _ => (.error "AttributeError", calls + 1)

/-- One day of pagination, entered at `page = 1`. -/
def runDay (fetch : Nat → Except String Json) (day : Nat) :
    Except String (List Json × List ErrEntry) × Nat :=
  dayLoopAux fetch day (MAX_PAGES_PER_DAY - 1) 1 [] [] 0

-- -----------------------------
-- src/newapi.py, lines 385-389: dedup by event_key
-- -----------------------------

/-- `drop_duplicates(subset=["event_key"])` with pandas' default
`keep="first"`: keep each row whose `event_key` has not been seen yet. -/
def dedupGo (seen : List String) : List Row → List Row
  | [] => []
  | r :: rest =>
      if r.event_key ∈ seen then dedupGo seen rest
      else r :: dedupGo (r.event_key :: seen) rest

def dedupByKey (l : List Row) : List Row := dedupGo [] l

-- -----------------------------
-- src/newapi.py, lines 309-404: the do_fetch action
-- -----------------------------

/-- Outcome of the `do_fetch` branch:
* `tokenWarning` — blank token (line 310-311);
* `rangeError` — end date before start date (line 312-313);
* `generalError` — an exception escaped the day loop or normalization
  and hit the outer handler of line 403;
* `noData errs` — `dfs` stayed empty (lines 380-383);
* `ok rows errs` — concatenated, dedup-ed rows plus the aggregated
  error list (lines 384-401). -/
inductive FetchOutcome where
  | tokenWarning : FetchOutcome
  | rangeError : FetchOutcome
  | generalError (msg : String) : FetchOutcome
  | noData (errs : List ErrEntry) : FetchOutcome
  | ok (rows : List Row) (errs : List ErrEntry) : FetchOutcome
deriving DecidableEq

/-- The `for i in range(total_dias)` loop of lines 321-378.  `fetch` is
`fetch_api_day` abstracted over `(day, page)`; `l` is the list of
remaining day offsets; `dfs`, `errs` and `calls` accumulate exactly the
source's `dfs`, `errores` and the number of HTTP calls issued.  An
exception from the day loop or from `normalize_result` aborts the whole
loop (it propagates to the handler of line 403). -/
def rangeLoop (fetch : Nat → Nat → Except String Json)
    (resolve : String → Option (Int → Int)) (tz : String) (startD : Nat) :
    List Nat → List (List Row) → List ErrEntry → Nat →
    Except String (List (List Row) × List ErrEntry) × Nat
  | [], dfs, errs, calls => (.ok (dfs, errs), calls)
  | i :: rest, dfs, errs, calls =>
      let day := startD + i
      match runDay (fetch day) day with
      | (.error e, c) => (.error e, calls + c)
      | (.ok (recs, derrs), c) =>
          let errs2 := errs ++ derrs
          match recs with
          | [] => rangeLoop fetch resolve tz startD rest dfs errs2 (calls + c)
          | _ :: _ =>
              match normalizeResult resolve tz recs with
              | .error e => (.error e, calls + c)
              | .ok rows =>
                  let dfs2 := match rows with | [] => dfs | _ :: _ => dfs ++ [rows]
                  rangeLoop fetch resolve tz startD rest dfs2 errs2 (calls + c)

/-- `do_fetch` (lines 309-404).  Dates are embedded as day ordinals, so
`fecha_hasta < fecha_desde` is `endD < startD` and the day displayed in
error entries is `startD + i`.  The final `if "event_key" in
df_all.columns` guard of line 388 always holds for a non-empty
concatenation, so the dedup is unconditional here.  The second
component counts upstream HTTP calls. -/
def doFetch (token : String) (startD endD : Nat)
    (fetch : Nat → Nat → Except String Json)
    (resolve : String → Option (Int → Int)) (tzRaw : String) :
    FetchOutcome × Nat :=
  if pyStrip token = "" then (.tokenWarning, 0)
  else if endD < startD then (.rangeError, 0)
  else
    let total := endD - startD + 1
    match rangeLoop fetch resolve (pyStrip tzRaw) startD (List.range total) [] [] 0 with
    | (.error e, c) => (.generalError e, c)
    | (.ok (dfs, errs), c) =>
        match dfs with
        | [] => (.noData errs, c)
        | _ :: _ => (.ok (dedupByKey dfs.flatten) errs, c)

-- -----------------------------
-- Test scaffolding (not from the source)
-- -----------------------------

/-- A well-formed upstream page: `success = 1` with the given results. -/
def mkPage (results : List Json) : Json :=
  Json.obj [("success", Json.num 1), ("results", Json.arr results)]

/-- The contribution of one day's normalized rows to the source's `dfs`
list: nothing for an empty day, a singleton otherwise (lines 370-373). -/
def dayDfsOf (rows : List Row) : List (List Row) :=
  match rows with
  | [] => []
  | _ :: _ => [rows]

/-- Stated from the amended C4 claim: the value of the first candidate
identifier field holding a truthy value, scanning in priority order. -/
def firstTruthyField (it : Json) (keys : List String) : Option Json :=
  (keys.map (dget it)).find? pyTruthy

/-- Concatenation of `k` consecutive result pages starting at `page`. -/
def pagesFrom (rs : Nat → List Json) (page : Nat) : Nat → List Json
  | 0 => []
  | k + 1 => rs page ++ pagesFrom rs (page + 1) k

-- -----------------------------
-- Helper lemmas
-- -----------------------------

theorem pyTruthy_null_false : pyTruthy Json.null = false := rfl

theorem ne_null_of_pyTruthy {a : Json} (h : pyTruthy a = true) : a ≠ Json.null := by
  intro he
  rw [he] at h
  simp [pyTruthy] at h

theorem pyOr_ne_null (a : Json) {b : Json} (hb : b ≠ Json.null) : pyOr a b ≠ Json.null := by
  unfold pyOr
  split
  · next ht => exact ne_null_of_pyTruthy ht
  · exact hb

theorem extract_name_ne_null (side : Json) : _extract_name side ≠ Json.null := by
  cases side with
  | null => simp [_extract_name]
  | obj fs =>
      exact pyOr_ne_null _ (by intro h; exact Json.noConfusion h)
  | bool b => simp [_extract_name]
  | num n => simp [_extract_name]
  | str s => simp [_extract_name]
  | arr xs => simp [_extract_name]

theorem normalizeRecord_obj (resolve : String → Option (Int → Int)) (tz : String)
    (fs : List (String × Json)) :
    ∃ r, normalizeRecord resolve tz (Json.obj fs) = .ok r ∧
      r.first_player ≠ Json.null ∧ r.second_player ≠ Json.null ∧
      r.tournament_name ≠ Json.null ∧ r.event_key = eventKeyOf (Json.obj fs) := by
  refine ⟨_, rfl, extract_name_ne_null _, extract_name_ne_null _, ?_, rfl⟩
  show (match pyOr (dget (Json.obj fs) "league") (Json.obj []) with
        | .obj _ =>
            pyOr (pyOr (pyOr (dget (pyOr (dget (Json.obj fs) "league") (Json.obj [])) "name")
              (dget (pyOr (dget (Json.obj fs) "league") (Json.obj [])) "name_en"))
              (dget (pyOr (dget (Json.obj fs) "league") (Json.obj [])) "cc")) (Json.str "")
        | .null => Json.str ""
        | l => Json.str (pyStr l)) ≠ Json.null
  cases pyOr (dget (Json.obj fs) "league") (Json.obj []) with
  | null => simp
  | obj gs => exact pyOr_ne_null _ (by intro h; exact Json.noConfusion h)
  | bool b => simp
  | num n => simp
  | str s => simp
  | arr xs => simp

theorem normalizeResult_objs (resolve : String → Option (Int → Int)) (tz : String) :
    ∀ batch : List Json, (∀ it ∈ batch, it.isObj = true) →
      ∃ rows, normalizeResult resolve tz batch = .ok rows ∧
        rows.length = batch.length := by
  intro batch
  induction batch with
  | nil => exact fun _ => ⟨[], rfl, rfl⟩
  | cons it rest ih =>
      intro h
      have hobj : it.isObj = true := h it (by simp)
      obtain ⟨rows, hrows, hlen⟩ := ih (fun x hx => h x (by simp [hx]))
      cases it with
      | obj fs =>
          obtain ⟨r, hr, -, -, -, -⟩ := normalizeRecord_obj resolve tz fs
          refine ⟨r :: rows, ?_, by simp [hlen]⟩
          simp [normalizeResult, hr, hrows]
      | null => simp [Json.isObj] at hobj
      | bool b => simp [Json.isObj] at hobj
      | num n => simp [Json.isObj] at hobj
      | str s => simp [Json.isObj] at hobj
      | arr xs => simp [Json.isObj] at hobj

theorem strOrEmpty_of_ne_null {v : Json} (hv : v ≠ Json.null) : strOrEmpty v = pyStr v := by
  cases v with
  | null => exact absurd rfl hv
  | bool b => rfl
  | num n => rfl
  | str s => rfl
  | arr xs => rfl
  | obj fs => rfl

theorem pyOr_of_truthy {a : Json} (h : pyTruthy a = true) (b : Json) : pyOr a b = a := by
  simp [pyOr, h]

theorem pyOr_of_falsy {a : Json} (h : ¬ pyTruthy a = true) (b : Json) : pyOr a b = b := by
  simp [pyOr, h]

-- -----------------------------
-- C1 — field-extractor priority
-- -----------------------------

/-- C1 counterexample: for a side object carrying both `name_full` and
`name`, `_extract_name` returns the generic `name`, not `name_full` as
the claim states (the source's priority chain starts with `name`). -/
theorem c1_counterexample :
    _extract_name (Json.obj [("name_full", Json.str "Full"), ("name", Json.str "Generic")]) =
      Json.str "Generic" ∧
    Json.str "Generic" ≠ Json.str "Full" :=
  ⟨rfl, by decide⟩

/-- C1 amended: the extractor's priority order is `name`, `name_en`,
`name_full`, `name_short` (generic name first, full name third), taking
the first truthy field and falling back to `""`; with both `name_full`
and a non-empty `name` present it returns `name`; with only `name`
present it returns `name`; a plain string is returned as-is; an absent
(`None`) side gives `""`. -/
theorem c1_amended :
    (∀ side : Json, side.isObj = true →
      _extract_name side =
        match firstTruthyField side ["name", "name_en", "name_full", "name_short"] with
        | some v => v
        | none => Json.str "") ∧
    (∀ f g : String, g ≠ "" →
      _extract_name (Json.obj [("name_full", Json.str f), ("name", Json.str g)]) = Json.str g) ∧
    (∀ g : String, g ≠ "" →
      _extract_name (Json.obj [("name", Json.str g)]) = Json.str g) ∧
    (∀ s : String, _extract_name (Json.str s) = Json.str s) ∧
    _extract_name Json.null = Json.str "" := by
  refine ⟨?_, ?_, ?_, fun s => rfl, rfl⟩
  · intro side hobj
    cases side with
    | obj fs =>
        by_cases h1 : pyTruthy (dget (Json.obj fs) "name") = true <;>
          by_cases h2 : pyTruthy (dget (Json.obj fs) "name_en") = true <;>
          by_cases h3 : pyTruthy (dget (Json.obj fs) "name_full") = true <;>
          by_cases h4 : pyTruthy (dget (Json.obj fs) "name_short") = true <;>
          simp [_extract_name, firstTruthyField, pyOr, List.find?, h1, h2, h3, h4]
    | null => simp [Json.isObj] at hobj
    | bool b => simp [Json.isObj] at hobj
    | num n => simp [Json.isObj] at hobj
    | str s => simp [Json.isObj] at hobj
    | arr xs => simp [Json.isObj] at hobj
  · intro f g hg
    simp [_extract_name, pyOr, dget, List.find?, pyTruthy, hg]
  · intro g hg
    simp [_extract_name, pyOr, dget, List.find?, pyTruthy, hg]

/-- Witness for the amended C1 at concrete inputs. -/
theorem c1_amended_witness :
    _extract_name (Json.obj [("name", Json.str "A"), ("name_full", Json.str "B")]) =
      Json.str "A" ∧
    _extract_name (Json.obj [("name_full", Json.str "B"), ("name", Json.str "A")]) =
      Json.str "A" ∧
    _extract_name (Json.obj [("name", Json.str "A")]) = Json.str "A" ∧
    _extract_name (Json.str "S") = Json.str "S" ∧
    _extract_name Json.null = Json.str "" :=
  ⟨(c1_amended.1 (Json.obj [("name", Json.str "A"), ("name_full", Json.str "B")]) rfl).trans
      (by decide),
    c1_amended.2.1 "B" "A" (by decide),
    c1_amended.2.2.1 "A" (by decide),
    c1_amended.2.2.2.1 "S",
    c1_amended.2.2.2.2⟩

-- -----------------------------
-- C2 — timestamp localizer fallback
-- -----------------------------

/-- C2 counterexample: epoch `0` is falsy in Python, so the localizer
returns `("", "")` at epoch `0`, not `("1970-01-01", "00:00:00")` as
the claim states (line 145, `if not epoch_value`). -/
theorem c2_counterexample :
    _convert_epoch_to_date_time (fun _ => none) (Json.num 0) "Invalid/Zone" = ("", "") ∧
    (("", "") : String × String) ≠ ("1970-01-01", "00:00:00") :=
  ⟨rfl, by decide⟩

/-- C2 amended: an absent (`None`) epoch returns `("", "")`, and so does
epoch `0`, because `0` is falsy; the UTC fallback for an unknown
timezone name shows at any truthy epoch, e.g. epoch `86400` with
`"Invalid/Zone"` gives `("1970-01-02", "00:00:00")`. -/
theorem c2_amended (resolve : String → Option (Int → Int))
    (h : resolve "Invalid/Zone" = none) :
    _convert_epoch_to_date_time resolve (Json.num 0) "Invalid/Zone" = ("", "") ∧
    _convert_epoch_to_date_time resolve Json.null "Invalid/Zone" = ("", "") ∧
    _convert_epoch_to_date_time resolve (Json.num 86400) "Invalid/Zone" =
      ("1970-01-02", "00:00:00") := by
  refine ⟨rfl, rfl, ?_⟩
  unfold _convert_epoch_to_date_time
  rw [h]
  decide

/-- Witness for the amended C2 with a timezone database that does not
know `"Invalid/Zone"`. -/
theorem c2_amended_witness :
    _convert_epoch_to_date_time (fun _ => none) (Json.num 0) "Invalid/Zone" = ("", "") ∧
    _convert_epoch_to_date_time (fun _ => none) Json.null "Invalid/Zone" = ("", "") ∧
    _convert_epoch_to_date_time (fun _ => none) (Json.num 86400) "Invalid/Zone" =
      ("1970-01-02", "00:00:00") :=
  c2_amended (fun _ => none) rfl

-- -----------------------------
-- C3 — no exception propagates
-- -----------------------------

/-- C3 counterexample: a batch containing a non-object item makes
`normalize_result` raise (`it.get` on a plain string raises
`AttributeError` in Python), so the Record Normalizer is not total on
arbitrary JSON values. -/
theorem c3_counterexample :
    normalizeResult (fun _ => none) "UTC" [Json.str "boom"] = .error "AttributeError" :=
  rfl

/-- C3 amended: the Field Extractor (`_extract_name`, a total function
of the embedding) never raises, and the Record Normalizer never raises
on a batch in which every item is a JSON object — malformed side
objects, league values and epochs all degrade without errors; but a
non-object batch item raises `AttributeError`. -/
theorem c3_amended (resolve : String → Option (Int → Int)) (tz : String)
    (batch : List Json) (h : ∀ it ∈ batch, it.isObj = true) :
    ∃ rows, normalizeResult resolve tz batch = .ok rows := by
  obtain ⟨rows, hr, -⟩ := normalizeResult_objs resolve tz batch h
  exact ⟨rows, hr⟩

/-- Witness for the amended C3: a batch of two malformed-but-object
records normalizes without an error. -/
theorem c3_amended_witness :
    ∃ rows,
      normalizeResult (fun _ => none) "UTC"
        [Json.obj [("home", Json.num 3), ("time", Json.str "oops")], Json.obj []] =
      .ok rows :=
  c3_amended (fun _ => none) "UTC"
    [Json.obj [("home", Json.num 3), ("time", Json.str "oops")], Json.obj []] (by decide)

-- -----------------------------
-- C4 — event_key candidate selection
-- -----------------------------

/-- C4 counterexample: with `id` present but `0` and `event_id` present
as `5`, the normalized `event_key` is `"5"`: presence does not decide,
truthiness does, so a present identifier valued `0` is skipped. -/
theorem c4_counterexample :
    eventKeyOf (Json.obj [("id", Json.num 0), ("event_id", Json.num 5)]) = "5" ∧
    ("5" : String) ≠ "0" :=
  ⟨rfl, by decide⟩

/-- C4 amended: `event_key` is the stringification of the first TRUTHY
field among `id`, `event_id`, `FI`, `match_id`, `event_key`; a present
candidate holding a falsy value (`0`, `""`, ...) is skipped in favour of
a later truthy one, except that when no candidate is truthy the final
`event_key` candidate is still stringified if it is present and
non-null, and otherwise the result is the empty string. -/
theorem c4_amended (it : Json) (_hobj : it.isObj = true) :
    eventKeyOf it =
      match firstTruthyField it ["id", "event_id", "FI", "match_id", "event_key"] with
      | some v => pyStr v
      | none => strOrEmpty (dget it "event_key") := by
  unfold eventKeyOf firstTruthyField
  simp only [List.map]
  by_cases h1 : pyTruthy (dget it "id") = true
  · rw [List.find?_cons_of_pos _ h1, pyOr_of_truthy h1, pyOr_of_truthy h1,
      pyOr_of_truthy h1, pyOr_of_truthy h1]
    exact strOrEmpty_of_ne_null (ne_null_of_pyTruthy h1)
  · rw [List.find?_cons_of_neg _ h1, pyOr_of_falsy h1]
    by_cases h2 : pyTruthy (dget it "event_id") = true
    · rw [List.find?_cons_of_pos _ h2, pyOr_of_truthy h2, pyOr_of_truthy h2,
        pyOr_of_truthy h2]
      exact strOrEmpty_of_ne_null (ne_null_of_pyTruthy h2)
    · rw [List.find?_cons_of_neg _ h2, pyOr_of_falsy h2]
      by_cases h3 : pyTruthy (dget it "FI") = true
      · rw [List.find?_cons_of_pos _ h3, pyOr_of_truthy h3, pyOr_of_truthy h3]
        exact strOrEmpty_of_ne_null (ne_null_of_pyTruthy h3)
      · rw [List.find?_cons_of_neg _ h3, pyOr_of_falsy h3]
        by_cases h4 : pyTruthy (dget it "match_id") = true
        · rw [List.find?_cons_of_pos _ h4, pyOr_of_truthy h4]
          exact strOrEmpty_of_ne_null (ne_null_of_pyTruthy h4)
        · rw [List.find?_cons_of_neg _ h4, pyOr_of_falsy h4]
          by_cases h5 : pyTruthy (dget it "event_key") = true
          · rw [List.find?_cons_of_pos _ h5]
            exact strOrEmpty_of_ne_null (ne_null_of_pyTruthy h5)
          · rw [List.find?_cons_of_neg _ h5, List.find?_nil]

/-- Witness for the amended C4: a truthy `event_id` after a falsy `id`. -/
theorem c4_amended_witness :
    eventKeyOf (Json.obj [("id", Json.num 0), ("event_id", Json.num 5)]) =
      match firstTruthyField (Json.obj [("id", Json.num 0), ("event_id", Json.num 5)])
          ["id", "event_id", "FI", "match_id", "event_key"] with
      | some v => pyStr v
      | none => strOrEmpty (dget (Json.obj [("id", Json.num 0), ("event_id", Json.num 5)])
          "event_key") :=
  c4_amended (Json.obj [("id", Json.num 0), ("event_id", Json.num 5)]) rfl

-- -----------------------------
-- C5 — row schema stability
-- -----------------------------

/-- C5 counterexample: a record whose `home.name` holds the number `7`
normalizes to a row whose `first_player` is that raw number, not a
string — the extractor passes truthy non-string field values through
unchanged. -/
theorem c5_counterexample :
    normalizeResult (fun _ => none) "UTC"
        [Json.obj [("home", Json.obj [("name", Json.num 7)])]] =
      .ok [{ event_key := "", event_date := "", event_time := "",
             first_player := Json.num 7, second_player := Json.str "",
             tournament_name := Json.str "", event_type_type := "",
             event_status := "" }] ∧
    (Json.num 7).isStr = false :=
  ⟨rfl, rfl⟩

/-- C5 amended: for batches of object records, every produced row has
all eight fields (by construction of `Row`), `event_key`, `event_date`,
`event_time`, `event_type_type` and `event_status` are strings (their
type), and the three extracted fields are never absent or null — but
`first_player`, `second_player` and `tournament_name` may be non-string
JSON values when the upstream name fields hold truthy non-strings. -/
theorem c5_amended (resolve : String → Option (Int → Int)) (tz : String) :
    ∀ (batch : List Json) (rows : List Row),
      (∀ it ∈ batch, it.isObj = true) →
      normalizeResult resolve tz batch = .ok rows →
      ∀ r ∈ rows, r.first_player ≠ Json.null ∧ r.second_player ≠ Json.null ∧
        r.tournament_name ≠ Json.null := by
  intro batch
  induction batch with
  | nil =>
      intro rows _ hn r hr
      simp only [normalizeResult, Except.ok.injEq] at hn
      subst hn
      simp at hr
  | cons it rest ih =>
      intro rows h hn r hr
      have hobj := h it (by simp)
      cases it with
      | obj fs =>
          obtain ⟨r0, hr0, hf1, hf2, hf3, -⟩ := normalizeRecord_obj resolve tz fs
          cases hrest : normalizeResult resolve tz rest with
          | error e => simp [normalizeResult, hr0, hrest] at hn
          | ok rows' =>
              have hn2 : (r0 :: rows' : List Row) = rows := by
                simpa [normalizeResult, hr0, hrest] using hn
              subst hn2
              rcases List.mem_cons.mp hr with hEq | hMem
              · subst hEq; exact ⟨hf1, hf2, hf3⟩
              · exact ih rows' (fun x hx => h x (by simp [hx])) hrest r hMem
      | null => simp [Json.isObj] at hobj
      | bool b => simp [Json.isObj] at hobj
      | num n => simp [Json.isObj] at hobj
      | str s => simp [Json.isObj] at hobj
      | arr xs => simp [Json.isObj] at hobj

/-- Witness for the amended C5 at a concrete one-record batch. -/
theorem c5_amended_witness :
    (Json.num 7 : Json) ≠ Json.null ∧ (Json.str "" : Json) ≠ Json.null ∧
    (Json.str "" : Json) ≠ Json.null :=
  c5_amended (fun _ => none) "UTC"
    [Json.obj [("home", Json.obj [("name", Json.num 7)])]]
    [{ event_key := "", event_date := "", event_time := "",
       first_player := Json.num 7, second_player := Json.str "",
       tournament_name := Json.str "", event_type_type := "",
       event_status := "" }]
    (by decide) rfl
    { event_key := "", event_date := "", event_time := "",
      first_player := Json.num 7, second_player := Json.str "",
      tournament_name := Json.str "", event_type_type := "",
      event_status := "" }
    (by simp)

-- -----------------------------
-- C6 — pagination ceiling
-- -----------------------------

theorem dayLoopAux_page_zero (fetch : Nat → Except String Json) (day page : Nat)
    (acc : List Json) (errs : List ErrEntry) (calls : Nat)
    (res : List Json) (hne : res ≠ []) (hf : fetch page = .ok (mkPage res)) :
    dayLoopAux fetch day 0 page acc errs calls =
      (.ok (acc ++ res, errs ++ [ErrEntry.ceiling day]), calls + 1) := by
  obtain ⟨a, t, rfl⟩ : ∃ a t, res = a :: t := by
    cases res with
    | nil => exact absurd rfl hne
    | cons a t => exact ⟨a, t, rfl⟩
  have hs : dget (mkPage (a :: t)) "success" = Json.num 1 := rfl
  have hr : dget (mkPage (a :: t)) "results" = Json.arr (a :: t) := rfl
  rw [dayLoopAux, hf]
  simp only [hs, hr, jsonEqOne, pyTruthy, pyIter, List.isEmpty_cons, Bool.not_false,
    if_true]
  rfl

theorem dayLoopAux_page_succ (fetch : Nat → Except String Json) (day l page : Nat)
    (acc : List Json) (errs : List ErrEntry) (calls : Nat)
    (res : List Json) (hne : res ≠ []) (hf : fetch page = .ok (mkPage res)) :
    dayLoopAux fetch day (l + 1) page acc errs calls =
      dayLoopAux fetch day l (page + 1) (acc ++ res) errs (calls + 1) := by
  obtain ⟨a, t, rfl⟩ : ∃ a t, res = a :: t := by
    cases res with
    | nil => exact absurd rfl hne
    | cons a t => exact ⟨a, t, rfl⟩
  have hs : dget (mkPage (a :: t)) "success" = Json.num 1 := rfl
  have hr : dget (mkPage (a :: t)) "results" = Json.arr (a :: t) := rfl
  rw [dayLoopAux, hf]
  simp only [hs, hr, jsonEqOne, pyTruthy, pyIter, List.isEmpty_cons, Bool.not_false,
    if_true]
  rfl

theorem dayLoopAux_ceiling (rs : Nat → List Json) (day : Nat)
    (hrs : ∀ p, rs p ≠ []) :
    ∀ (left page : Nat) (acc : List Json) (errs : List ErrEntry) (calls : Nat),
      dayLoopAux (fun p => .ok (mkPage (rs p))) day left page acc errs calls =
        (.ok (acc ++ pagesFrom rs page (left + 1), errs ++ [ErrEntry.ceiling day]),
         calls + (left + 1)) := by
  intro left
  induction left with
  | zero =>
      intro page acc errs calls
      rw [dayLoopAux_page_zero _ day page acc errs calls (rs page) (hrs page) rfl]
      simp [pagesFrom]
  | succ l ih =>
      intro page acc errs calls
      rw [dayLoopAux_page_succ _ day l page acc errs calls (rs page) (hrs page) rfl]
      rw [ih (page + 1) (acc ++ rs page) errs (calls + 1)]
      simp [pagesFrom, List.append_assoc]
      omega

/-- C6: when the upstream returns a non-empty results page with
`success = 1` on every call, the day's pagination terminates after
accumulating exactly `MAX_PAGES_PER_DAY` (20) pages, records exactly
one ceiling-caveat error entry for the day, and keeps all data
collected so far, after exactly 20 HTTP calls.  (Unboundedness is
excluded by construction: the loop recurses on the decreasing
`MAX_PAGES_PER_DAY - page` bound of the embedding.) -/
theorem c6_pagination_ceiling (day : Nat) (rs : Nat → List Json)
    (hrs : ∀ p, rs p ≠ []) :
    runDay (fun p => .ok (mkPage (rs p))) day =
      (.ok (pagesFrom rs 1 MAX_PAGES_PER_DAY, [ErrEntry.ceiling day]),
       MAX_PAGES_PER_DAY) := by
  unfold runDay
  rw [dayLoopAux_ceiling rs day hrs (MAX_PAGES_PER_DAY - 1) 1 [] [] 0]
  simp [MAX_PAGES_PER_DAY]

/-- Witness for C6: the page content is one fixed record, so the loop
accumulates 20 copies of it. -/
theorem c6_pagination_ceiling_witness :
    runDay (fun _ => .ok (mkPage [Json.obj [("id", Json.num 1)]])) 7 =
      (.ok (pagesFrom (fun _ => [Json.obj [("id", Json.num 1)]]) 1 MAX_PAGES_PER_DAY,
        [ErrEntry.ceiling 7]), MAX_PAGES_PER_DAY) ∧
    (pagesFrom (fun _ => [Json.obj [("id", Json.num 1)]]) 1 MAX_PAGES_PER_DAY).length = 20 :=
  ⟨c6_pagination_ceiling 7 (fun _ => [Json.obj [("id", Json.num 1)]]) (fun _ => by simp),
   by decide⟩

-- -----------------------------
-- C7 — range validation
-- -----------------------------

/-- C7 counterexample: with a blank token and an inverted range, the
operation stops with the token warning (line 310-311), not with the
range-validation error the claim promises for every inverted pair of
dates — the token check precedes the range check. -/
theorem c7_counterexample :
    (doFetch "" 5 1 (fun _ _ => .error "net") (fun _ => none) "UTC").1 =
      FetchOutcome.tokenWarning ∧
    FetchOutcome.tokenWarning ≠ FetchOutcome.rangeError :=
  ⟨by decide, fun h => FetchOutcome.noConfusion h⟩

/-- C7 amended: for every inverted range (end before start) the
operation performs zero upstream HTTP calls, and — provided the token
is non-blank, since the blank-token warning takes precedence — it fails
immediately with the range-validation error. -/
theorem c7_amended (token : String) (startD endD : Nat)
    (fetch : Nat → Nat → Except String Json) (resolve : String → Option (Int → Int))
    (tzRaw : String) (hrange : endD < startD) :
    (doFetch token startD endD fetch resolve tzRaw).2 = 0 ∧
    (pyStrip token ≠ "" →
      (doFetch token startD endD fetch resolve tzRaw).1 = FetchOutcome.rangeError) := by
  unfold doFetch
  by_cases ht : pyStrip token = ""
  · simp [ht]
  · simp [ht, hrange]

/-- Witness for the amended C7 at the claim's dates (start after end). -/
theorem c7_amended_witness :
    (doFetch "tok" 5 1 (fun _ _ => .error "net") (fun _ => none) "UTC").2 = 0 ∧
    (pyStrip "tok" ≠ "" →
      (doFetch "tok" 5 1 (fun _ _ => .error "net") (fun _ => none) "UTC").1 =
        FetchOutcome.rangeError) :=
  c7_amended "tok" 5 1 (fun _ _ => .error "net") (fun _ => none) "UTC" (by decide)

-- -----------------------------
-- Dedup lemmas
-- -----------------------------

theorem dedupGo_filter (k : String) :
    ∀ (l : List Row) (seen : List String),
      (k ∈ seen → (dedupGo seen l).filter (fun r => r.event_key == k) = []) ∧
      (k ∉ seen → (dedupGo seen l).filter (fun r => r.event_key == k) =
        (l.find? (fun r => r.event_key == k)).toList) := by
  intro l
  induction l with
  | nil => intro seen; exact ⟨fun _ => by simp [dedupGo], fun _ => by simp [dedupGo]⟩
  | cons r t ih =>
      intro seen
      constructor
      · intro hk
        by_cases hr : r.event_key ∈ seen
        · simpa [dedupGo, hr] using (ih seen).1 hk
        · have hne : (r.event_key == k) = false := by
            simp only [beq_eq_false_iff_ne, ne_eq]
            intro he
            exact hr (he ▸ hk)
          have hrest := (ih (r.event_key :: seen)).1 (by simp [hk])
          simp [dedupGo, hr, List.filter_cons, hne, hrest]
      · intro hk
        by_cases hr : r.event_key ∈ seen
        · have hne : (r.event_key == k) = false := by
            simp only [beq_eq_false_iff_ne, ne_eq]
            intro he
            exact hk (he ▸ hr)
          have hfind : List.find? (fun x => x.event_key == k) (r :: t) =
              List.find? (fun x => x.event_key == k) t :=
            List.find?_cons_of_neg _ (by simp [hne])
          simp [dedupGo, hr, (ih seen).2 hk, hfind]
        · by_cases hrk : r.event_key = k
          · subst hrk
            have hfind : List.find? (fun x => x.event_key == r.event_key) (r :: t) =
                some r :=
              List.find?_cons_of_pos _ (by simp)
            have hrest := (ih (r.event_key :: seen)).1 (by simp)
            simp [dedupGo, hr, List.filter_cons, hrest, hfind]
          · have hne : (r.event_key == k) = false := by simp [hrk]
            have hfind : List.find? (fun x => x.event_key == k) (r :: t) =
                List.find? (fun x => x.event_key == k) t :=
              List.find?_cons_of_neg _ (by simp [hne])
            have hrest := (ih (r.event_key :: seen)).2 (by
              intro hmem
              rcases List.mem_cons.mp hmem with he | hs
              · exact hrk he.symm
              · exact hk hs)
            simp [dedupGo, hr, List.filter_cons, hne, hrest, hfind]

theorem dedupByKey_filter (l : List Row) (k : String) :
    (dedupByKey l).filter (fun r => r.event_key == k) =
      (l.find? (fun r => r.event_key == k)).toList :=
  (dedupGo_filter k l []).2 (by simp)

theorem dedupGo_all_seen :
    ∀ (l : List Row) (seen : List String), (∀ r ∈ l, r.event_key ∈ seen) →
      dedupGo seen l = [] := by
  intro l
  induction l with
  | nil => intro seen _; rfl
  | cons r t ih =>
      intro seen h
      have hr : r.event_key ∈ seen := h r (by simp)
      simp only [dedupGo, if_pos hr]
      exact ih seen (fun x hx => h x (by simp [hx]))

theorem dedupByKey_all_same (l : List Row) (h : ∀ r ∈ l, r.event_key = "") :
    dedupByKey l = l.take 1 := by
  cases l with
  | nil => rfl
  | cons r t =>
      show dedupGo [] (r :: t) = [r]
      have hr : r.event_key ∉ ([] : List String) := by simp
      simp only [dedupGo, if_neg hr]
      rw [dedupGo_all_seen t [r.event_key]]
      intro x hx
      rw [h x (by simp [hx]), h r (by simp)]
      simp

-- -----------------------------
-- Range-loop aggregation
-- -----------------------------

theorem rangeLoop_ok (fetch : Nat → Nat → Except String Json)
    (resolve : String → Option (Int → Int)) (tz : String) (startD : Nat)
    (recs : Nat → List Json) (derrs : Nat → List ErrEntry) (rows : Nat → List Row)
    (c : Nat → Nat) :
    ∀ (l : List Nat) (dfs : List (List Row)) (errs : List ErrEntry) (calls : Nat),
      (∀ i ∈ l, runDay (fetch (startD + i)) (startD + i) = (.ok (recs i, derrs i), c i) ∧
        normalizeResult resolve tz (recs i) = .ok (rows i)) →
      rangeLoop fetch resolve tz startD l dfs errs calls =
        (.ok (dfs ++ l.flatMap (fun i => dayDfsOf (rows i)), errs ++ l.flatMap derrs),
         calls + (l.map c).sum) := by
  intro l
  induction l with
  | nil => intro dfs errs calls _; simp [rangeLoop]
  | cons i rest ih =>
      intro dfs errs calls H
      obtain ⟨hrun, hnorm⟩ := H i (by simp)
      have Hrest := fun j hj => H j (List.mem_cons_of_mem i hj)
      simp only [rangeLoop]
      rw [hrun]
      cases hrecs : recs i with
      | nil =>
          have hri : rows i = [] := by
            rw [hrecs] at hnorm
            have h2 : (Except.ok ([] : List Row) : Except String (List Row)) = .ok (rows i) :=
              hnorm
            simpa using h2
          dsimp only
          rw [ih dfs (errs ++ derrs i) (calls + c i) Hrest]
          simp [List.flatMap_cons, dayDfsOf, hri, List.append_assoc, Prod.mk.injEq]
          omega
      | cons a b =>
          rw [hrecs] at hnorm
          dsimp only
          rw [hnorm]
          cases hrows : rows i with
          | nil =>
              dsimp only
              rw [ih dfs (errs ++ derrs i) (calls + c i) Hrest]
              simp [List.flatMap_cons, dayDfsOf, hrows, List.append_assoc, Prod.mk.injEq]
              omega
          | cons r0 rs0 =>
              dsimp only
              rw [ih (dfs ++ [r0 :: rs0]) (errs ++ derrs i) (calls + c i) Hrest]
              simp [List.flatMap_cons, dayDfsOf, hrows, List.append_assoc, Prod.mk.injEq]
              omega

theorem flatMap_dayDfsOf_flatten (rows : Nat → List Row) :
    ∀ l : List Nat, (l.flatMap (fun i => dayDfsOf (rows i))).flatten = l.flatMap rows := by
  intro l
  induction l with
  | nil => rfl
  | cons i rest ih =>
      rw [List.flatMap_cons, List.flatten_append, ih, List.flatMap_cons]
      cases hrows : rows i <;> simp [dayDfsOf, hrows]

theorem flatMap_dayDfsOf_eq_nil (rows : Nat → List Row) :
    ∀ l : List Nat,
      l.flatMap (fun i => dayDfsOf (rows i)) = [] ↔ l.flatMap rows = [] := by
  intro l
  induction l with
  | nil => simp
  | cons i rest ih =>
      rw [List.flatMap_cons, List.flatMap_cons]
      cases hrows : rows i with
      | cons a b => simp [dayDfsOf, hrows]
      | nil =>
          simp only [dayDfsOf, List.nil_append]
          exact ih

theorem doFetch_aggregate (token : String) (startD endD : Nat)
    (fetch : Nat → Nat → Except String Json) (resolve : String → Option (Int → Int))
    (tzRaw : String)
    (recs : Nat → List Json) (derrs : Nat → List ErrEntry) (rows : Nat → List Row)
    (c : Nat → Nat)
    (htok : pyStrip token ≠ "") (hrange : startD ≤ endD)
    (H : ∀ i ∈ List.range (endD - startD + 1),
      runDay (fetch (startD + i)) (startD + i) = (.ok (recs i, derrs i), c i) ∧
      normalizeResult resolve (pyStrip tzRaw) (recs i) = .ok (rows i)) :
    doFetch token startD endD fetch resolve tzRaw =
      (if ((List.range (endD - startD + 1)).flatMap rows).isEmpty then
        FetchOutcome.noData ((List.range (endD - startD + 1)).flatMap derrs)
      else
        FetchOutcome.ok (dedupByKey ((List.range (endD - startD + 1)).flatMap rows))
          ((List.range (endD - startD + 1)).flatMap derrs),
       ((List.range (endD - startD + 1)).map c).sum) := by
  unfold doFetch
  rw [if_neg htok, if_neg (Nat.not_lt.mpr hrange)]
  dsimp only
  rw [rangeLoop_ok fetch resolve (pyStrip tzRaw) startD recs derrs rows c
    (List.range (endD - startD + 1)) [] [] 0 H]
  simp only [List.nil_append, Nat.zero_add]
  cases hd : (List.range (endD - startD + 1)).flatMap (fun i => dayDfsOf (rows i)) with
  | nil =>
      have h0 : (List.range (endD - startD + 1)).flatMap rows = [] :=
        (flatMap_dayDfsOf_eq_nil rows _).mp hd
      simp [h0]
  | cons d ds =>
      have hne : (List.range (endD - startD + 1)).flatMap rows ≠ [] := by
        intro h0
        have h1 := (flatMap_dayDfsOf_eq_nil rows _).mpr h0
        rw [hd] at h1
        exact List.noConfusion h1
      have hfl : (d :: ds).flatten = (List.range (endD - startD + 1)).flatMap rows := by
        rw [← hd]
        exact flatMap_dayDfsOf_flatten rows _
      have hie : ((List.range (endD - startD + 1)).flatMap rows).isEmpty = false := by
        cases hx : (List.range (endD - startD + 1)).flatMap rows with
        | nil => exact absurd hx hne
        | cons x xs => rfl
      simp [hfl, hie]

-- -----------------------------
-- C9 — per-day failure isolation
-- -----------------------------

/-- C9: with a non-blank token and a valid range, whenever every day's
pagination run terminates without a Python exception (transport errors,
non-success flags and the page ceiling all end a day regularly) and the
day's accumulated records normalize, the orchestrator processes every
day of the range: the outcome reports the concatenation of every day's
error entries in encounter order, together with the rows of all days
that produced data (deduplicated) — a single day's failure never aborts
the range. -/
theorem c9_day_failure_isolated (token : String) (startD endD : Nat)
    (fetch : Nat → Nat → Except String Json) (resolve : String → Option (Int → Int))
    (tzRaw : String)
    (recs : Nat → List Json) (derrs : Nat → List ErrEntry) (rows : Nat → List Row)
    (c : Nat → Nat)
    (htok : pyStrip token ≠ "") (hrange : startD ≤ endD)
    (H : ∀ i ∈ List.range (endD - startD + 1),
      runDay (fetch (startD + i)) (startD + i) = (.ok (recs i, derrs i), c i) ∧
      normalizeResult resolve (pyStrip tzRaw) (recs i) = .ok (rows i)) :
    doFetch token startD endD fetch resolve tzRaw =
      (if ((List.range (endD - startD + 1)).flatMap rows).isEmpty then
        FetchOutcome.noData ((List.range (endD - startD + 1)).flatMap derrs)
      else
        FetchOutcome.ok (dedupByKey ((List.range (endD - startD + 1)).flatMap rows))
          ((List.range (endD - startD + 1)).flatMap derrs),
       ((List.range (endD - startD + 1)).map c).sum) :=
  doFetch_aggregate token startD endD fetch resolve tzRaw recs derrs rows c
    htok hrange H

/-- Witness for C9: three days; day 1 dies with a transport error at
page 1, days 0 and 2 each deliver one record — the range still returns
both rows and reports day 1's error. -/
theorem c9_day_failure_isolated_witness :
    doFetch "tok" 0 2
      (fun day page =>
        if day = 1 then Except.error "boom"
        else if page = 1 then
          Except.ok (mkPage [Json.obj
            [("id", Json.str (if day = 0 then "a" else "b"))]])
        else Except.ok (mkPage []))
      (fun _ => none) "UTC" =
      (FetchOutcome.ok
        [{ event_key := "a", event_date := "", event_time := "",
           first_player := Json.str "", second_player := Json.str "",
           tournament_name := Json.str "", event_type_type := "",
           event_status := "" },
         { event_key := "b", event_date := "", event_time := "",
           first_player := Json.str "", second_player := Json.str "",
           tournament_name := Json.str "", event_type_type := "",
           event_status := "" }]
        [ErrEntry.http 1 1 "boom"], 5) := by
  have h := c9_day_failure_isolated "tok" 0 2
    (fun day page =>
      if day = 1 then Except.error "boom"
      else if page = 1 then
        Except.ok (mkPage [Json.obj
          [("id", Json.str (if day = 0 then "a" else "b"))]])
      else Except.ok (mkPage []))
    (fun _ => none) "UTC"
    (fun i => if i = 0 then [Json.obj [("id", Json.str "a")]]
      else if i = 1 then [] else [Json.obj [("id", Json.str "b")]])
    (fun i => if i = 1 then [ErrEntry.http 1 1 "boom"] else [])
    (fun i => if i = 0 then
        [{ event_key := "a", event_date := "", event_time := "",
           first_player := Json.str "", second_player := Json.str "",
           tournament_name := Json.str "", event_type_type := "",
           event_status := "" }]
      else if i = 1 then []
      else
        [{ event_key := "b", event_date := "", event_time := "",
           first_player := Json.str "", second_player := Json.str "",
           tournament_name := Json.str "", event_type_type := "",
           event_status := "" }])
    (fun i => if i = 1 then 1 else 2)
    (by decide) (by decide)
    (by
      intro i hi
      simp only [List.mem_range] at hi
      interval_cases i <;> exact ⟨rfl, rfl⟩)
  exact h.trans (by decide)

-- -----------------------------
-- C8 — dedup keeps first occurrence
-- -----------------------------

/-- C8: under the same well-behaved-range hypotheses as C9, for any
`event_key` value occurring in the concatenation of all days' rows (in
day order), the final row set contains exactly one row with that key,
namely the first occurrence of the concatenation — so when two days
each yield a record with the same key, the row kept comes from the
first day encountered. -/
theorem c8_dedup_keeps_first (token : String) (startD endD : Nat)
    (fetch : Nat → Nat → Except String Json) (resolve : String → Option (Int → Int))
    (tzRaw : String)
    (recs : Nat → List Json) (derrs : Nat → List ErrEntry) (rows : Nat → List Row)
    (c : Nat → Nat)
    (htok : pyStrip token ≠ "") (hrange : startD ≤ endD)
    (H : ∀ i ∈ List.range (endD - startD + 1),
      runDay (fetch (startD + i)) (startD + i) = (.ok (recs i, derrs i), c i) ∧
      normalizeResult resolve (pyStrip tzRaw) (recs i) = .ok (rows i))
    (k : String) (r0 : Row)
    (hfind : ((List.range (endD - startD + 1)).flatMap rows).find?
      (fun r => r.event_key == k) = some r0) :
    doFetch token startD endD fetch resolve tzRaw =
      (FetchOutcome.ok (dedupByKey ((List.range (endD - startD + 1)).flatMap rows))
        ((List.range (endD - startD + 1)).flatMap derrs),
       ((List.range (endD - startD + 1)).map c).sum) ∧
    (dedupByKey ((List.range (endD - startD + 1)).flatMap rows)).filter
      (fun r => r.event_key == k) = [r0] := by
  have hmem : r0 ∈ (List.range (endD - startD + 1)).flatMap rows :=
    List.mem_of_find?_eq_some hfind
  have hne : (List.range (endD - startD + 1)).flatMap rows ≠ [] := by
    intro h0
    rw [h0] at hmem
    exact absurd hmem (by simp)
  have hie : ((List.range (endD - startD + 1)).flatMap rows).isEmpty = false := by
    cases hx : (List.range (endD - startD + 1)).flatMap rows with
    | nil => exact absurd hx hne
    | cons x xs => rfl
  constructor
  · rw [doFetch_aggregate token startD endD fetch resolve tzRaw recs derrs rows c
      htok hrange H]
    simp [hie]
  · rw [dedupByKey_filter, hfind]
    rfl

/-- Witness for C8: days 0 and 1 both deliver a record with key `"123"`
but different player payloads; the kept row is day 0's. -/
theorem c8_dedup_keeps_first_witness :
    doFetch "tok" 0 1
      (fun day page =>
        if page = 1 then
          Except.ok (mkPage [Json.obj
            [("id", Json.str "123"),
             ("home", Json.obj [("name",
               Json.str (if day = 0 then "P0" else "P1"))])]])
        else Except.ok (mkPage []))
      (fun _ => none) "UTC" =
      (FetchOutcome.ok
        (dedupByKey ((List.range (1 - 0 + 1)).flatMap
          (fun i =>
            [{ event_key := "123", event_date := "", event_time := "",
               first_player := Json.str (if i = 0 then "P0" else "P1"),
               second_player := Json.str "", tournament_name := Json.str "",
               event_type_type := "", event_status := "" }])))
        ((List.range (1 - 0 + 1)).flatMap (fun _ => ([] : List ErrEntry))),
       ((List.range (1 - 0 + 1)).map (fun _ => 2)).sum) ∧
    (dedupByKey ((List.range (1 - 0 + 1)).flatMap
        (fun i =>
          [{ event_key := "123", event_date := "", event_time := "",
             first_player := Json.str (if i = 0 then "P0" else "P1"),
             second_player := Json.str "", tournament_name := Json.str "",
             event_type_type := "", event_status := "" }]))).filter
      (fun r => r.event_key == "123") =
      [{ event_key := "123", event_date := "", event_time := "",
         first_player := Json.str "P0", second_player := Json.str "",
         tournament_name := Json.str "", event_type_type := "",
         event_status := "" }] :=
  c8_dedup_keeps_first "tok" 0 1
    (fun day page =>
      if page = 1 then
        Except.ok (mkPage [Json.obj
          [("id", Json.str "123"),
           ("home", Json.obj [("name",
             Json.str (if day = 0 then "P0" else "P1"))])]])
      else Except.ok (mkPage []))
    (fun _ => none) "UTC"
    (fun i =>
      [Json.obj
        [("id", Json.str "123"),
         ("home", Json.obj [("name", Json.str (if i = 0 then "P0" else "P1"))])]])
    (fun _ => []) 
    (fun i =>
      [{ event_key := "123", event_date := "", event_time := "",
         first_player := Json.str (if i = 0 then "P0" else "P1"),
         second_player := Json.str "", tournament_name := Json.str "",
         event_type_type := "", event_status := "" }])
    (fun _ => 2)
    (by decide) (by decide)
    (by
      intro i hi
      simp only [List.mem_range] at hi
      interval_cases i <;> exact ⟨rfl, rfl⟩)
    "123"
    { event_key := "123", event_date := "", event_time := "",
      first_player := Json.str "P0", second_player := Json.str "",
      tournament_name := Json.str "", event_type_type := "",
      event_status := "" }
    (by decide)

-- -----------------------------
-- C10 — identifier-less records collapse under dedup
-- -----------------------------

theorem eventKeyOf_empty (it : Json)
    (h : ∀ key ∈ (["id", "event_id", "FI", "match_id", "event_key"] : List String),
      dget it key = Json.null) :
    eventKeyOf it = "" := by
  unfold eventKeyOf
  rw [h "id" (by simp), h "event_id" (by simp), h "FI" (by simp), h "match_id" (by simp),
    h "event_key" (by simp)]
  rfl

theorem normalizeResult_keyless (resolve : String → Option (Int → Int)) (tz : String) :
    ∀ batch : List Json,
      (∀ it ∈ batch, it.isObj = true) →
      (∀ it ∈ batch, ∀ key ∈ (["id", "event_id", "FI", "match_id", "event_key"] : List String),
        dget it key = Json.null) →
      ∃ rows, normalizeResult resolve tz batch = .ok rows ∧
        rows.length = batch.length ∧ ∀ r ∈ rows, r.event_key = "" := by
  intro batch
  induction batch with
  | nil => exact fun _ _ => ⟨[], rfl, rfl, by simp⟩
  | cons it rest ih =>
      intro hobj hnid
      obtain ⟨rows, hrows, hlen, hkeys⟩ :=
        ih (fun x hx => hobj x (by simp [hx])) (fun x hx => hnid x (by simp [hx]))
      have hobj1 := hobj it (by simp)
      cases it with
      | obj fs =>
          obtain ⟨r, hr, -, -, -, hkey⟩ := normalizeRecord_obj resolve tz fs
          refine ⟨r :: rows, by simp [normalizeResult, hr, hrows], by simp [hlen], ?_⟩
          intro x hx
          rcases List.mem_cons.mp hx with rfl | hx2
          · rw [hkey]
            exact eventKeyOf_empty _ (hnid (Json.obj fs) (by simp))
          · exact hkeys x hx2
      | null => simp [Json.isObj] at hobj1
      | bool b => simp [Json.isObj] at hobj1
      | num n => simp [Json.isObj] at hobj1
      | str s => simp [Json.isObj] at hobj1
      | arr xs => simp [Json.isObj] at hobj1

/-- C10: a batch of object records none of which carries any
identifier field (all five candidate keys absent, or bound to null)
normalizes to rows that all have the empty `event_key`, and the
dedup-by-`event_key` step keeps only the first of them — every
identifier-less record after the first is silently dropped. -/
theorem c10_keyless_records_collapse (resolve : String → Option (Int → Int))
    (tz : String) (batch : List Json)
    (hne : batch ≠ [])
    (hobj : ∀ it ∈ batch, it.isObj = true)
    (hnid : ∀ it ∈ batch, ∀ key ∈ (["id", "event_id", "FI", "match_id", "event_key"] :
      List String), dget it key = Json.null) :
    ∃ rows, normalizeResult resolve tz batch = .ok rows ∧
      rows.length = batch.length ∧
      (∀ r ∈ rows, r.event_key = "") ∧
      dedupByKey rows = rows.take 1 ∧
      (dedupByKey rows).length = 1 := by
  obtain ⟨rows, h1, h2, h3⟩ := normalizeResult_keyless resolve tz batch hobj hnid
  have hrne : rows ≠ [] := by
    intro h0
    rw [h0] at h2
    cases hb : batch with
    | nil => exact hne hb
    | cons x xs => rw [hb] at h2; simp at h2
  have hded := dedupByKey_all_same rows h3
  refine ⟨rows, h1, h2, h3, hded, ?_⟩
  rw [hded]
  cases rows with
  | nil => exact absurd rfl hrne
  | cons r t => rfl

/-- Witness for C10: two object records with no identifier fields. -/
theorem c10_keyless_records_collapse_witness :
    ∃ rows,
      normalizeResult (fun _ => none) "UTC"
        [Json.obj [("x", Json.num 1)], Json.obj [("y", Json.num 2)]] = .ok rows ∧
      rows.length = ([Json.obj [("x", Json.num 1)], Json.obj [("y", Json.num 2)]] :
        List Json).length ∧
      (∀ r ∈ rows, r.event_key = "") ∧
      dedupByKey rows = rows.take 1 ∧
      (dedupByKey rows).length = 1 :=
  c10_keyless_records_collapse (fun _ => none) "UTC"
    [Json.obj [("x", Json.num 1)], Json.obj [("y", Json.num 2)]]
    (by simp) (by decide) (by decide)
